import Mathlib

/-!
Verification of the syla-api-gateway core against its specification.

Shallow embedding of the Rust sources:
* `src/execution.rs` — the protocol-independent domain model;
* `src/error.rs` — the REST error taxonomy and its HTTP encoding;
* `src/state.rs` — the state coordinator (HTTP+JSON backend transport and cache);
* `src/auth.rs` and the `SKIP_AUTH` parsing in `src/main.rs` — the auth contract;
* `src/clients/execution.rs` — the gRPC backend transport translations;
* `src/grpc.rs` — the RPC protocol adapter;
* the REST handlers of `src/main.rs`.

Modelling conventions: UUIDs are modelled as naturals and their wire form as
decimal strings; timestamps as integers; Rust `Result<T, E>` as `Except E T`;
the `reqwest` HTTP interaction as an oracle function from the request to an
`HttpResult`; the shared `HashMap` execution cache as an association list.
Every operation returns, besides its result, the resulting cache and a flag
recording whether the backend service was called, so that the cache policy and
call-count properties are expressible.
-/

/-- ASCII lower-casing of one character; `str::to_lowercase` restricted to the
ASCII range, which covers every language string the gateway distinguishes. -/
def asciiToLower (c : Char) : Char :=
  if 'A' ≤ c ∧ c ≤ 'Z' then Char.ofNat (c.toNat + 32) else c

/-- `str::to_lowercase` (ASCII range). -/
def strToLower (s : String) : String := String.mk (s.data.map asciiToLower)

/-- `str::starts_with`. -/
def strStartsWith (s p : String) : Bool := decide (s.data.take p.data.length = p.data)

/-- `&auth_str[7..]`: dropping a 7-character ASCII prefix. -/
def strDrop (s : String) (n : Nat) : String := String.mk (s.data.drop n)

/-- The numeric value of an ASCII decimal digit. -/
def digitVal (c : Char) : Option Nat :=
  if 48 ≤ c.toNat ∧ c.toNat ≤ 57 then some (c.toNat - 48) else none

/-- Accumulator loop of the decimal parser. -/
def parseNatAux : List Char → Nat → Option Nat
  | [], acc => some acc
  | c :: rest, acc =>
    match digitVal c with
    | some d => parseNatAux rest (acc * 10 + d)
    | none => none

/-- Parse a non-empty all-digit string as a natural. -/
def parseNatStr (s : String) : Option Nat :=
  if s.data = [] then none else parseNatAux s.data 0

/-- Domain execution status, from `ExecutionStatus` in `src/execution.rs`:
Pending, Running, Completed, Failed, Timeout. -/
inductive ExecutionStatus where
  | Pending
  | Running
  | Completed
  | Failed
  | Timeout
deriving DecidableEq, Repr

/-- Terminal statuses per the specification's glossary: Completed, Failed and
Timeout are terminal; Pending and Running are not. -/
def ExecutionStatus.isTerminal : ExecutionStatus → Bool
  | .Pending => false
  | .Running => false
  | .Completed => true
  | .Failed => true
  | .Timeout => true

/-- From `ExecutionResult` in `src/execution.rs`. -/
structure ExecutionResult where
  exit_code : Int
  stdout : String
  stderr : String
  duration_ms : Nat
deriving DecidableEq, Repr

/-- From `ExecutionResponse` in `src/execution.rs`; the UUID id is modelled as
a natural, timestamps as integers. -/
structure ExecutionResponse where
  id : Nat
  status : ExecutionStatus
  created_at : Int
  started_at : Option Int
  completed_at : Option Int
  result : Option ExecutionResult
deriving DecidableEq, Repr

/-- From `CreateExecutionRequest` in `src/execution.rs`. -/
structure CreateExecutionRequest where
  code : String
  language : String
  timeout_seconds : Option Nat
  args : Option (List String)
  workspace_id : Option Nat
deriving DecidableEq, Repr

/-- From `ApiError` in `src/error.rs`; the `anyhow::Error` payload of
`Internal` is modelled as its message string. -/
inductive ApiError where
  | NotFound
  | BadRequest (msg : String)
  | Internal (msg : String)
  | ServiceUnavailable
  | RateLimited
deriving DecidableEq, Repr

/-- The HTTP status code assigned to each error by
`impl IntoResponse for ApiError` in `src/error.rs`. -/
def ApiError.statusCode : ApiError → Nat
  | .NotFound => 404
  | .BadRequest _ => 400
  | .Internal _ => 500
  | .ServiceUnavailable => 503
  | .RateLimited => 429

/-- The machine-readable error kind assigned by
`impl IntoResponse for ApiError` in `src/error.rs`. -/
def ApiError.errorKind : ApiError → String
  | .NotFound => "not_found"
  | .BadRequest _ => "bad_request"
  | .Internal _ => "internal_error"
  | .ServiceUnavailable => "service_unavailable"
  | .RateLimited => "rate_limited"

/-- From the private `JobStatus` enum in `src/state.rs` (the execution
service's JSON status vocabulary). -/
inductive JobStatus where
  | Queued
  | Running
  | Completed
  | Failed
  | Timeout
deriving DecidableEq, Repr

/-- From the private `JobResult` struct in `src/state.rs`. -/
structure JobResult where
  exit_code : Int
  stdout : String
  stderr : String
  duration_ms : Nat
deriving DecidableEq, Repr

/-- From the private `ExecutionJob` struct in `src/state.rs` (the execution
service's JSON payload mirrored by the gateway). -/
structure ExecutionJob where
  id : Nat
  status : JobStatus
  request : CreateExecutionRequest
  created_at : Int
  started_at : Option Int
  completed_at : Option Int
  result : Option JobResult
deriving DecidableEq, Repr

/-- The `match job.status` translation that appears verbatim in both
`AppState::create_execution` and `AppState::get_execution` in `src/state.rs`. -/
def jobStatusToExecutionStatus : JobStatus → ExecutionStatus
  | .Queued => .Pending
  | .Running => .Running
  | .Completed => .Completed
  | .Failed => .Failed
  | .Timeout => .Failed

/-- The `ExecutionResponse` construction from an `ExecutionJob` that appears
verbatim in both `AppState::create_execution` and `AppState::get_execution`
in `src/state.rs`. -/
def jobToResponse (job : ExecutionJob) : ExecutionResponse :=
  { id := job.id
    status := jobStatusToExecutionStatus job.status
    result := job.result.map fun r =>
      { exit_code := r.exit_code
        stdout := r.stdout
        stderr := r.stderr
        duration_ms := r.duration_ms }
    created_at := job.created_at
    started_at := job.started_at
    completed_at := job.completed_at }

/-- Outcome of one `reqwest` call made by `AppState` in `src/state.rs`:
either the `send()` future fails (transport error), or an HTTP response
arrives with a status code and a body that may or may not deserialize as an
`ExecutionJob` (`None` models a JSON deserialization failure). -/
inductive HttpResult where
  | transportError (msg : String)
  | response (status : Nat) (body : Option ExecutionJob)
deriving DecidableEq, Repr

/-- `reqwest::StatusCode::is_success`: 2xx. -/
def isSuccessStatus (status : Nat) : Bool :=
  decide (200 ≤ status ∧ status < 300)

/-- The in-memory execution cache of `AppState` (`HashMap<Uuid,
ExecutionResponse>` in `src/state.rs`), modelled as an association list. -/
abbrev Cache := List (Nat × ExecutionResponse)

/-- `HashMap::get` on the execution cache. -/
def cacheGet : Cache → Nat → Option ExecutionResponse
  | [], _ => none
  | (k, v) :: rest, id => if k = id then some v else cacheGet rest id

/-- `HashMap::insert` on the execution cache: the new binding replaces any
previous binding of the same key. -/
def cacheInsert (cache : Cache) (id : Nat) (v : ExecutionResponse) : Cache :=
  (id, v) :: cache.filter fun p => p.1 ≠ id

instance exceptDecEq {ε α : Type} [DecidableEq ε] [DecidableEq α] :
    DecidableEq (Except ε α) := fun a b =>
  match a, b with
  | .ok x, .ok y =>
    if h : x = y then .isTrue (by rw [h]) else .isFalse (fun hc => h (Except.ok.inj hc))
  | .error x, .error y =>
    if h : x = y then .isTrue (by rw [h]) else .isFalse (fun hc => h (Except.error.inj hc))
  | .ok _, .error _ => .isFalse (fun hc => Except.noConfusion hc)
  | .error _, .ok _ => .isFalse (fun hc => Except.noConfusion hc)

/-- Result of a state-coordinator operation: the Rust return value, the cache
after the call, and whether the backend execution service was called. -/
structure CallOutcome where
  result : Except ApiError ExecutionResponse
  cache : Cache
  backendCalled : Bool
deriving DecidableEq, Repr

/-- `AppState::create_execution` from `src/state.rs`: POST the request to the
execution service; transport failure and non-2xx statuses and malformed bodies
are `Internal` errors; on success convert the job and cache it under the
backend-assigned id. -/
def AppState.create_execution (cache : Cache)
    (post : CreateExecutionRequest → HttpResult)
    (request : CreateExecutionRequest) : CallOutcome :=
  match post request with
  | .transportError e => ⟨.error (.Internal e), cache, true⟩
  | .response status body =>
    if isSuccessStatus status = false then
      ⟨.error (.Internal ("Execution service returned status: " ++ toString status)),
        cache, true⟩
    else
      match body with
      | none => ⟨.error (.Internal ("error decoding response body")), cache, true⟩
      | some job =>
        let execution := jobToResponse job
        ⟨.ok execution, cacheInsert cache execution.id execution, true⟩

/-- The backend-fetch tail of `AppState::get_execution` in `src/state.rs`
(the code after the cache block, reached both on a cache miss and on a
non-terminal cache hit): GET the execution; a 404 response is the distinct
`NotFound` error; other non-2xx statuses, transport failures and malformed
bodies are `Internal`; on success convert the job and cache it. -/
def AppState.fetchExecution (cache : Cache)
    (get : Nat → HttpResult) (id : Nat) : CallOutcome :=
  match get id with
  | .transportError e => ⟨.error (.Internal e), cache, true⟩
  | .response status body =>
    if status = 404 then
      ⟨.error .NotFound, cache, true⟩
    else if isSuccessStatus status = false then
      ⟨.error (.Internal ("Execution service returned status: " ++ toString status)),
        cache, true⟩
    else
      match body with
      | none => ⟨.error (.Internal ("error decoding response body")), cache, true⟩
      | some job =>
        let execution := jobToResponse job
        ⟨.ok execution, cacheInsert cache execution.id execution, true⟩

/-- `AppState::get_execution` from `src/state.rs`: a cached entry whose status
is still Pending or Running is not trusted and the service is queried again;
any other cached entry is returned with no backend call; on a cache miss the
service is queried. -/
def AppState.get_execution (cache : Cache)
    (get : Nat → HttpResult) (id : Nat) : CallOutcome :=
  match cacheGet cache id with
  | some execution =>
    if execution.status = ExecutionStatus.Pending ∨
        execution.status = ExecutionStatus.Running then
      AppState.fetchExecution cache get id
    else
      ⟨.ok execution, cache, false⟩
  | none => AppState.fetchExecution cache get id

/-- Result of `AppState::get_execution_status`. -/
structure StatusOutcome where
  result : Except ApiError ExecutionStatus
  cache : Cache
  backendCalled : Bool
deriving DecidableEq, Repr

/-- `AppState::get_execution_status` from `src/state.rs`: delegate to
`get_execution` and project the status field. -/
def AppState.get_execution_status (cache : Cache)
    (get : Nat → HttpResult) (id : Nat) : StatusOutcome :=
  let o := AppState.get_execution cache get id
  match o.result with
  | .ok execution => ⟨.ok execution.status, o.cache, o.backendCalled⟩
  | .error e => ⟨.error e, o.cache, o.backendCalled⟩

/-- gRPC status codes used by the gateway (`tonic::Status` constructors
appearing in `src/auth.rs` and `src/grpc.rs`). -/
inductive GrpcCode where
  | ok
  | invalidArgument
  | notFound
  | internal
  | unauthenticated
  | unimplemented
deriving DecidableEq, Repr

/-- A `tonic::Status`: code plus message. -/
structure GrpcStatus where
  code : GrpcCode
  message : String
deriving DecidableEq, Repr

/-- From `AuthContext` in `src/auth.rs`. -/
structure AuthContext where
  user_id : String
  tenant_id : Option String
  token : String
deriving DecidableEq, Repr

/-- `AuthInterceptor::validate_token` from `src/auth.rs` (the placeholder
validation): the sentinel token "invalid" is rejected as unauthenticated,
every other token resolves to the placeholder identity. -/
def AuthInterceptor.validate_token (token : String) : Except GrpcStatus AuthContext :=
  if token = "invalid" then
    .error ⟨.unauthenticated, "Invalid token"⟩
  else
    .ok { user_id := "placeholder-user"
          tenant_id := some "placeholder-tenant"
          token := token }

/-- `AuthInterceptor::authenticate` from `src/auth.rs`. The request's
`authorization` metadata entry is modelled as an optional string. With
`skip_auth` set, the fixed development identity is returned without looking at
the request; otherwise the header must be present, start with "Bearer ", and
the remainder must pass `validate_token`. -/
def AuthInterceptor.authenticate (skip_auth : Bool)
    (auth_header : Option String) : Except GrpcStatus AuthContext :=
  if skip_auth then
    .ok { user_id := "dev-user"
          tenant_id := some "dev-tenant"
          token := "dev-token" }
  else
    match auth_header with
    | none => .error ⟨.unauthenticated, "Missing authorization header"⟩
    | some auth_str =>
      if strStartsWith auth_str ("Bearer ") = true then
        AuthInterceptor.validate_token (strDrop auth_str 7)
      else
        .error ⟨.unauthenticated, "Invalid authorization format"⟩

/-- Rust's `str::parse::<bool>` (`bool::from_str`): only the exact strings
"true" and "false" parse. -/
def rustParseBool (s : String) : Option Bool :=
  if s = "true" then some true
  else if s = "false" then some false
  else none

/-- The `SKIP_AUTH` configuration computation in `main` (`src/main.rs`):
`std::env::var("SKIP_AUTH").unwrap_or_else(|_| "false").parse::<bool>().unwrap_or(false)`.
The environment variable is modelled as an optional string. -/
def skipAuthConfig (envVar : Option String) : Bool :=
  (rustParseBool (envVar.getD "false")).getD false

/-- Modelled from the spec: the generated protobuf language enum
(`syla.v1.Language` / `syla.execution.v1.Language`). The `.proto` files and
the `tonic-build` output are generated code absent from the source tree; the
spec's section 3 enumerates the languages (python, javascript, typescript,
rust, go, java, cpp, csharp, ruby, php, shell, unspecified). -/
inductive ProtoLanguage where
  | Unspecified
  | Python
  | Javascript
  | Typescript
  | Rust
  | Go
  | Java
  | Cpp
  | Csharp
  | Ruby
  | Php
  | Shell
deriving DecidableEq, Repr

/-- Modelled from the spec: the prost `as i32` wire value of each language
enum variant, with `Unspecified = 0` and the remaining variants numbered in
declaration order. -/
def languageToI32 : ProtoLanguage → Int
  | .Unspecified => 0
  | .Python => 1
  | .Javascript => 2
  | .Typescript => 3
  | .Rust => 4
  | .Go => 5
  | .Java => 6
  | .Cpp => 7
  | .Csharp => 8
  | .Ruby => 9
  | .Php => 10
  | .Shell => 11

/-- Modelled from the spec: prost's generated `Language::try_from(i32)`,
the partial inverse of `languageToI32`. -/
def languageTryFrom (i : Int) : Option ProtoLanguage :=
  if i = 0 then some .Unspecified
  else if i = 1 then some .Python
  else if i = 2 then some .Javascript
  else if i = 3 then some .Typescript
  else if i = 4 then some .Rust
  else if i = 5 then some .Go
  else if i = 6 then some .Java
  else if i = 7 then some .Cpp
  else if i = 8 then some .Csharp
  else if i = 9 then some .Ruby
  else if i = 10 then some .Php
  else if i = 11 then some .Shell
  else none

/-- Modelled from the spec: the generated backend protobuf execution status
enum (`syla.execution.v1.ExecutionStatus`), whose variants are those matched
in `ExecutionClient::proto_to_status` in `src/clients/execution.rs`; the spec's
section 3 lists the backend sub-states (queued, preparing, cancelled, ...). -/
inductive ProtoExecutionStatus where
  | Unspecified
  | Pending
  | Queued
  | Preparing
  | Running
  | Completed
  | Failed
  | Cancelled
  | Timeout
deriving DecidableEq, Repr

/-- Modelled from the spec: the prost `as i32` wire value of each backend
status variant, with `Unspecified = 0` and the remaining variants numbered in
declaration order. -/
def protoStatusToI32 : ProtoExecutionStatus → Int
  | .Unspecified => 0
  | .Pending => 1
  | .Queued => 2
  | .Preparing => 3
  | .Running => 4
  | .Completed => 5
  | .Failed => 6
  | .Cancelled => 7
  | .Timeout => 8

/-- Modelled from the spec: prost's generated
`ExecutionStatus::try_from(i32)`, the partial inverse of `protoStatusToI32`. -/
def protoStatusTryFrom (i : Int) : Option ProtoExecutionStatus :=
  if i = 0 then some .Unspecified
  else if i = 1 then some .Pending
  else if i = 2 then some .Queued
  else if i = 3 then some .Preparing
  else if i = 4 then some .Running
  else if i = 5 then some .Completed
  else if i = 6 then some .Failed
  else if i = 7 then some .Cancelled
  else if i = 8 then some .Timeout
  else none

/-- `ExecutionClient::language_to_proto` from `src/clients/execution.rs`:
lower-case the string and map the eleven supported languages (plus the
aliases c++, c#, bash, sh) to the wire enum; anything else to Unspecified. -/
def ExecutionClient.language_to_proto (lang : String) : ProtoLanguage :=
  match strToLower lang with
  | "python" => .Python
  | "javascript" => .Javascript
  | "typescript" => .Typescript
  | "rust" => .Rust
  | "go" => .Go
  | "java" => .Java
  | "cpp" => .Cpp
  | "c++" => .Cpp
  | "csharp" => .Csharp
  | "c#" => .Csharp
  | "ruby" => .Ruby
  | "php" => .Php
  | "shell" => .Shell
  | "bash" => .Shell
  | "sh" => .Shell
  | _ => .Unspecified

/-- `ExecutionClient::proto_to_status` from `src/clients/execution.rs`:
`ExecutionStatus::try_from(status).unwrap_or(Unspecified)` followed by the
collapse onto the 5-value domain status; the Rust catch-all arm (reached for
`Unspecified`) yields Pending. -/
def ExecutionClient.proto_to_status (status : Int) : ExecutionStatus :=
  match (protoStatusTryFrom status).getD ProtoExecutionStatus.Unspecified with
  | .Pending | .Queued | .Preparing => .Pending
  | .Running => .Running
  | .Completed => .Completed
  | .Failed | .Cancelled => .Failed
  | .Timeout => .Timeout
  | .Unspecified => .Pending

/-- Refinement correspondence following the spec's words: the backend reports
one status set over both transports, so each JSON job status names the
protobuf backend status of the same name. -/
def backendJobStatusAsProto : JobStatus → ProtoExecutionStatus
  | .Queued => .Queued
  | .Running => .Running
  | .Completed => .Completed
  | .Failed => .Failed
  | .Timeout => .Timeout

/-- `Uuid::parse_str`, under the convention that UUIDs are naturals written in
decimal. -/
def uuidParse (s : String) : Option Nat :=
  parseNatStr s

/-- `u64` cast of an `i64` (`seconds as u64` in `src/grpc.rs`). -/
def u64cast (i : Int) : Nat :=
  (i % (2 : Int) ^ 64).toNat

/-- The wire form of `CreateExecutionRequest` received by the RPC adapter
(`src/grpc.rs`): language as a raw enum integer, optional timeout as its
seconds, workspace id as a string. -/
structure ProtoCreateExecutionRequest where
  language : Int
  code : String
  args : List String
  timeout : Option Int
  workspace_id : String
  metadata : List (String × String)
deriving DecidableEq, Repr

/-- The wire form of `GetExecutionRequest` received by the RPC adapter
(`src/grpc.rs`): the execution id as a string. -/
structure ProtoGetExecutionRequest where
  id : String
deriving DecidableEq, Repr

/-- Result of an RPC-adapter operation: the `Result<_, tonic::Status>` value
(with the successful payload kept in the domain model — the re-encoding of a
successful `ExecutionResponse` into the wire `Execution` message is not
modelled, no claim concerns it), the cache after the call, and whether the
backend execution service was called. -/
structure GrpcOutcome where
  result : Except GrpcStatus ExecutionResponse
  cache : Cache
  backendCalled : Bool
deriving DecidableEq, Repr

/-- The `match Language::try_from(req.language)` block of
`SylaGatewayService::create_execution` in `src/grpc.rs`: ten languages map to
their canonical strings; everything else — including `Unspecified`, `Shell`
and unknown integers — is rejected with `invalid_argument`. -/
def grpcLanguageName (language : Int) : Except GrpcStatus String :=
  match languageTryFrom language with
  | some ProtoLanguage.Python => .ok "python"
  | some ProtoLanguage.Javascript => .ok "javascript"
  | some ProtoLanguage.Typescript => .ok "typescript"
  | some ProtoLanguage.Rust => .ok "rust"
  | some ProtoLanguage.Go => .ok "go"
  | some ProtoLanguage.Java => .ok "java"
  | some ProtoLanguage.Cpp => .ok "cpp"
  | some ProtoLanguage.Csharp => .ok "csharp"
  | some ProtoLanguage.Ruby => .ok "ruby"
  | some ProtoLanguage.Php => .ok "php"
  | _ => .error ⟨.invalidArgument, "Invalid language"⟩

/-- `SylaGatewayService::create_execution` from `src/grpc.rs`: authenticate,
translate the language enum (rejecting unknown values), build the domain
request, delegate to `AppState::create_execution`, and collapse any state
error to an internal status. -/
def SylaGatewayService.create_execution (skip_auth : Bool)
    (auth_header : Option String) (cache : Cache)
    (post : CreateExecutionRequest → HttpResult)
    (req : ProtoCreateExecutionRequest) : GrpcOutcome :=
  match AuthInterceptor.authenticate skip_auth auth_header with
  | .error s => ⟨.error s, cache, false⟩
  | .ok _auth_context =>
    match grpcLanguageName req.language with
    | .error s => ⟨.error s, cache, false⟩
    | .ok language =>
      let execution_req : CreateExecutionRequest :=
        { code := req.code
          language := language
          timeout_seconds := req.timeout.map u64cast
          args := some req.args
          workspace_id :=
            if req.workspace_id = "" then none else uuidParse req.workspace_id }
      let o := AppState.create_execution cache post execution_req
      match o.result with
      | .ok e => ⟨.ok e, o.cache, o.backendCalled⟩
      | .error _ =>
        ⟨.error ⟨.internal, "Failed to create execution"⟩, o.cache, o.backendCalled⟩

/-- `SylaGatewayService::get_execution` from `src/grpc.rs`: authenticate,
parse the id (rejecting malformed ids with `invalid_argument`), delegate to
`AppState::get_execution`, map `NotFound` to the gRPC not-found status and
every other state error to an internal status. -/
def SylaGatewayService.get_execution (skip_auth : Bool)
    (auth_header : Option String) (cache : Cache)
    (get : Nat → HttpResult) (req : ProtoGetExecutionRequest) : GrpcOutcome :=
  match AuthInterceptor.authenticate skip_auth auth_header with
  | .error s => ⟨.error s, cache, false⟩
  | .ok _auth_context =>
    match uuidParse req.id with
    | none => ⟨.error ⟨.invalidArgument, "Invalid execution ID"⟩, cache, false⟩
    | some execution_id =>
      let o := AppState.get_execution cache get execution_id
      match o.result with
      | .ok e => ⟨.ok e, o.cache, o.backendCalled⟩
      | .error ApiError.NotFound =>
        ⟨.error ⟨.notFound, "Execution not found"⟩, o.cache, o.backendCalled⟩
      | .error _ =>
        ⟨.error ⟨.internal, "Failed to get execution"⟩, o.cache, o.backendCalled⟩

/-- An inbound HTTP request as seen by the REST router in `src/main.rs`,
reduced to the part relevant here: its `authorization` header (if any). The
axum handlers extract only `State` and `Path`/`Json`, so the header is
available to the surface but never consulted. -/
structure RestRequest where
  auth_header : Option String
deriving DecidableEq, Repr

/-- The REST handler `create_execution` from `src/main.rs`: it passes the
decoded JSON body straight to `AppState::create_execution`; nothing else of
the request — in particular no credential — is consulted. -/
def restCreateExecutionHandler (cache : Cache)
    (post : CreateExecutionRequest → HttpResult)
    (_r : RestRequest) (request : CreateExecutionRequest) : CallOutcome :=
  AppState.create_execution cache post request

/-- The REST handler `get_execution` from `src/main.rs`: it passes the path
id straight to `AppState::get_execution`; no credential is consulted. -/
def restGetExecutionHandler (cache : Cache)
    (get : Nat → HttpResult) (_r : RestRequest) (id : Nat) : CallOutcome :=
  AppState.get_execution cache get id

/-- The REST handler `get_execution_status` from `src/main.rs`. -/
def restGetExecutionStatusHandler (cache : Cache)
    (get : Nat → HttpResult) (_r : RestRequest) (id : Nat) : StatusOutcome :=
  AppState.get_execution_status cache get id

/-! ### Concrete fixtures used by witnesses and counterexamples -/

/-- A sample domain creation request (spec scenario A). -/
def sampleRequest : CreateExecutionRequest :=
  { code := "print(1)"
    language := "python"
    timeout_seconds := none
    args := none
    workspace_id := none }

/-- A sample backend job in the Completed state. -/
def sampleJob : ExecutionJob :=
  { id := 7
    status := JobStatus.Completed
    request := sampleRequest
    created_at := 5
    started_at := some 6
    completed_at := some 7
    result := some { exit_code := 0, stdout := "ok", stderr := "", duration_ms := 12 } }

/-- The same backend job still in the Running state. -/
def runningJob : ExecutionJob :=
  { sampleJob with status := JobStatus.Running, result := none }

/-- The domain view of `sampleJob` (a terminal cache entry). -/
def completedExec : ExecutionResponse := jobToResponse sampleJob

/-- The domain view of `runningJob` (a non-terminal cache entry). -/
def runningExec : ExecutionResponse := jobToResponse runningJob

/-- A backend GET oracle that always answers 200 with `sampleJob`. -/
def backendOk : Nat → HttpResult := fun _ => HttpResult.response 200 (some sampleJob)

/-- A backend GET oracle that always answers 404. -/
def backendMissing : Nat → HttpResult := fun _ => HttpResult.response 404 none

/-- A backend POST oracle that always answers 200 with `sampleJob`. -/
def postOk : CreateExecutionRequest → HttpResult :=
  fun _ => HttpResult.response 200 (some sampleJob)

/-- A backend POST oracle whose transport always fails. -/
def postDown : CreateExecutionRequest → HttpResult :=
  fun _ => HttpResult.transportError "connection refused"

/-! ### Claims -/

/-- C6: `get_execution_status(id)` returns exactly the status field of the
execution returned by `get_execution(id)`, leaves the same cache and backend
call behind, and errors exactly when `get_execution` errors — it is a
projection of `get_execution` with no independent code path. -/
theorem c6_get_execution_status_is_get_dot_status (cache : Cache)
    (get : Nat → HttpResult) (id : Nat) :
    (AppState.get_execution_status cache get id).result =
      Except.map ExecutionResponse.status (AppState.get_execution cache get id).result ∧
    (AppState.get_execution_status cache get id).cache =
      (AppState.get_execution cache get id).cache ∧
    (AppState.get_execution_status cache get id).backendCalled =
      (AppState.get_execution cache get id).backendCalled ∧
    ∀ e : ApiError,
      ((AppState.get_execution_status cache get id).result = Except.error e ↔
        (AppState.get_execution cache get id).result = Except.error e) := by
  unfold AppState.get_execution_status
  cases h : (AppState.get_execution cache get id).result <;>
    simp [h, Except.map]

/-- C8: the development bypass is never the default: `SKIP_AUTH` absent or
unparsable yields `skip_auth = false`; only the exact string "true" enables
it; and with the bypass enabled, `authenticate` returns the fixed development
identity without inspecting the request's credential. -/
theorem c8_skip_auth_never_default (s : String) (header : Option String)
    (hbad : rustParseBool s = none) :
    skipAuthConfig none = false ∧
    skipAuthConfig (some s) = false ∧
    (∀ t : String, skipAuthConfig (some t) = true ↔ t = "true") ∧
    AuthInterceptor.authenticate true header =
      Except.ok { user_id := "dev-user"
                  tenant_id := some "dev-tenant"
                  token := "dev-token" } := by
  refine ⟨rfl, ?_, ?_, rfl⟩
  · simp [skipAuthConfig, hbad]
  · intro t
    unfold skipAuthConfig rustParseBool
    by_cases h1 : t = "true" <;> by_cases h2 : t = "false" <;> simp [h1, h2]

/-- Witness for C8 at the unparsable value "yes" and a request that presents
the invalid credential. -/
theorem c8_witness :
    skipAuthConfig (some "yes") = false ∧
    (skipAuthConfig (some "true") = true ↔ ("true" : String) = "true") ∧
    AuthInterceptor.authenticate true (some "Bearer invalid") =
      Except.ok { user_id := "dev-user"
                  tenant_id := some "dev-tenant"
                  token := "dev-token" } := by
  have h := c8_skip_auth_never_default "yes" (some "Bearer invalid") (by decide)
  exact ⟨h.2.1, h.2.2.1 "true", h.2.2.2⟩

/-- C9: `proto_to_status` is total by construction and maps every wire value
that is out of range or Unspecified to Pending, which is non-terminal. -/
theorem c9_proto_to_status_unrecognized_is_pending (i : Int)
    (h : protoStatusTryFrom i = none ∨
      protoStatusTryFrom i = some ProtoExecutionStatus.Unspecified) :
    ExecutionClient.proto_to_status i = ExecutionStatus.Pending ∧
    (ExecutionClient.proto_to_status i).isTerminal = false := by
  cases h with
  | inl h => simp [ExecutionClient.proto_to_status, h, ExecutionStatus.isTerminal]
  | inr h => simp [ExecutionClient.proto_to_status, h, ExecutionStatus.isTerminal]

/-- Witness for C9 at the out-of-range wire value 42 and at Unspecified. -/
theorem c9_witness :
    (ExecutionClient.proto_to_status 42 = ExecutionStatus.Pending ∧
      (ExecutionClient.proto_to_status 42).isTerminal = false) ∧
    (ExecutionClient.proto_to_status 0 = ExecutionStatus.Pending ∧
      (ExecutionClient.proto_to_status 0).isTerminal = false) :=
  ⟨c9_proto_to_status_unrecognized_is_pending 42 (Or.inl (by decide)),
    c9_proto_to_status_unrecognized_is_pending 0 (Or.inr (by decide))⟩

/-- The backend-fetch tail of `get_execution` leaves the cache untouched on
every error path. -/
theorem fetchExecution_cache_unchanged_on_error (cache : Cache)
    (get : Nat → HttpResult) (id : Nat) :
    ∀ e, (AppState.fetchExecution cache get id).result = Except.error e →
      (AppState.fetchExecution cache get id).cache = cache := by
  intro e
  unfold AppState.fetchExecution
  split
  · intro _; rfl
  · split
    · intro _; rfl
    · split
      · intro _; rfl
      · split
        · intro _; rfl
        · intro hcon; simp at hcon

/-- C10: the two state-coordinator operations are atomic with respect to the
cache: whenever `create_execution` or `get_execution` returns an error, the
cache is exactly the cache before the call. -/
theorem c10_cache_unchanged_on_error (cache : Cache)
    (post : CreateExecutionRequest → HttpResult) (get : Nat → HttpResult)
    (request : CreateExecutionRequest) (id : Nat) :
    (∀ e, (AppState.create_execution cache post request).result = Except.error e →
      (AppState.create_execution cache post request).cache = cache) ∧
    (∀ e, (AppState.get_execution cache get id).result = Except.error e →
      (AppState.get_execution cache get id).cache = cache) := by
  constructor
  · intro e
    unfold AppState.create_execution
    split
    · intro _; rfl
    · split
      · intro _; rfl
      · split
        · intro _; rfl
        · intro hcon; simp at hcon
  · intro e
    unfold AppState.get_execution
    split
    · split
      · exact fetchExecution_cache_unchanged_on_error cache get id e
      · intro hcon; simp at hcon
    · exact fetchExecution_cache_unchanged_on_error cache get id e

/-- Witness for C10: a failed create (transport down) and a failed get (404)
both leave an empty cache empty. -/
theorem c10_witness :
    (AppState.create_execution [] postDown sampleRequest).cache = [] ∧
    (AppState.get_execution [] backendMissing 7).cache = [] := by
  have h := c10_cache_unchanged_on_error [] postDown backendMissing sampleRequest 7
  exact ⟨h.1 (ApiError.Internal "connection refused") (by decide),
    h.2 ApiError.NotFound (by decide)⟩

/-- C1: `get_execution` follows the three-case cache policy. No cache entry:
run the backend fetch (which, when the backend answers successfully, caches
the converted job and returns it). Cached entry with terminal status
(Completed, Failed or Timeout): return it unchanged with no backend call.
Cached entry with non-terminal status (Pending or Running): run the backend
fetch again, overwriting the cache entry with the fresh result on success. -/
theorem c1_get_execution_cache_policy (cache : Cache)
    (get : Nat → HttpResult) (id : Nat) :
    (cacheGet cache id = none →
      AppState.get_execution cache get id = AppState.fetchExecution cache get id) ∧
    (∀ e, cacheGet cache id = some e → e.status.isTerminal = true →
      AppState.get_execution cache get id = ⟨Except.ok e, cache, false⟩) ∧
    (∀ e, cacheGet cache id = some e → e.status.isTerminal = false →
      AppState.get_execution cache get id = AppState.fetchExecution cache get id) ∧
    (AppState.fetchExecution cache get id).backendCalled = true ∧
    (∀ status job, get id = HttpResult.response status (some job) →
      isSuccessStatus status = true → status ≠ 404 →
      AppState.fetchExecution cache get id =
        ⟨Except.ok (jobToResponse job),
          cacheInsert cache (jobToResponse job).id (jobToResponse job), true⟩) := by
  refine ⟨?_, ?_, ?_, ?_, ?_⟩
  · intro h
    simp only [AppState.get_execution, h]
  · intro e he ht
    have hc : ¬ (e.status = ExecutionStatus.Pending ∨
        e.status = ExecutionStatus.Running) := by
      intro hor
      cases hor with
      | inl h' => rw [h'] at ht; exact absurd ht (by decide)
      | inr h' => rw [h'] at ht; exact absurd ht (by decide)
    simp only [AppState.get_execution, he]
    rw [if_neg hc]
  · intro e he ht
    have hc : e.status = ExecutionStatus.Pending ∨
        e.status = ExecutionStatus.Running := by
      cases h' : e.status
      · exact Or.inl rfl
      · exact Or.inr rfl
      · rw [h'] at ht; exact absurd ht (by decide)
      · rw [h'] at ht; exact absurd ht (by decide)
      · rw [h'] at ht; exact absurd ht (by decide)
    simp only [AppState.get_execution, he]
    rw [if_pos hc]
  · unfold AppState.fetchExecution
    split
    · rfl
    · split
      · rfl
      · split
        · rfl
        · split
          · rfl
          · rfl
  · intro status job hresp hsucc h404
    simp [AppState.fetchExecution, hresp, hsucc, h404]

/-- Witness for C1: a cache miss runs the fetch; a cached Completed entry is
returned with no backend call; a cached Running entry triggers a re-fetch; the
fetch calls the backend and, on a 200 answer, returns and caches the fresh
execution. -/
theorem c1_witness :
    AppState.get_execution [] backendOk 7 = AppState.fetchExecution [] backendOk 7 ∧
    AppState.get_execution [(7, completedExec)] backendOk 7 =
      ⟨Except.ok completedExec, [(7, completedExec)], false⟩ ∧
    AppState.get_execution [(7, runningExec)] backendOk 7 =
      AppState.fetchExecution [(7, runningExec)] backendOk 7 ∧
    (AppState.fetchExecution [] backendOk 7).backendCalled = true ∧
    AppState.fetchExecution [] backendOk 7 =
      ⟨Except.ok completedExec, cacheInsert [] completedExec.id completedExec, true⟩ := by
  have h1 := c1_get_execution_cache_policy [] backendOk 7
  have h2 := c1_get_execution_cache_policy [(7, completedExec)] backendOk 7
  have h3 := c1_get_execution_cache_policy [(7, runningExec)] backendOk 7
  exact ⟨h1.1 (by decide),
    h2.2.1 completedExec (by decide) (by decide),
    h3.2.2.1 runningExec (by decide) (by decide),
    h1.2.2.2.1,
    h1.2.2.2.2 200 sampleJob (by decide) (by decide) (by decide)⟩

/-- C2 is false at the backend "timeout" status: the HTTP/JSON translation in
`AppState` collapses it to Failed while the gRPC translation `proto_to_status`
maps it to Timeout. -/
theorem c2_counterexample :
    jobStatusToExecutionStatus JobStatus.Timeout ≠
      ExecutionClient.proto_to_status
        (protoStatusToI32 (backendJobStatusAsProto JobStatus.Timeout)) ∧
    jobStatusToExecutionStatus JobStatus.Timeout = ExecutionStatus.Failed ∧
    ExecutionClient.proto_to_status (protoStatusToI32 ProtoExecutionStatus.Timeout) =
      ExecutionStatus.Timeout := by decide

/-- C2 amended: the HTTP/JSON and gRPC status translations agree on every
backend-reported status except timeout — queued maps to Pending, running to
Running, completed to Completed, failed to Failed under both, and on the gRPC
side preparing additionally maps to Pending and cancelled to Failed — but
timeout is mapped to Failed by the HTTP/JSON translation and to Timeout by
the gRPC one. -/
theorem c2_status_collapse_agreement (j : JobStatus) (h : j ≠ JobStatus.Timeout) :
    jobStatusToExecutionStatus j =
      ExecutionClient.proto_to_status (protoStatusToI32 (backendJobStatusAsProto j)) ∧
    jobStatusToExecutionStatus JobStatus.Timeout = ExecutionStatus.Failed ∧
    ExecutionClient.proto_to_status (protoStatusToI32 ProtoExecutionStatus.Timeout) =
      ExecutionStatus.Timeout ∧
    ExecutionClient.proto_to_status (protoStatusToI32 ProtoExecutionStatus.Queued) =
      ExecutionStatus.Pending ∧
    ExecutionClient.proto_to_status (protoStatusToI32 ProtoExecutionStatus.Preparing) =
      ExecutionStatus.Pending ∧
    ExecutionClient.proto_to_status (protoStatusToI32 ProtoExecutionStatus.Cancelled) =
      ExecutionStatus.Failed := by
  cases j <;> first
    | exact absurd rfl h
    | decide

/-- Witness for C2 (amended) at the queued status. -/
theorem c2_witness :
    jobStatusToExecutionStatus JobStatus.Queued =
      ExecutionClient.proto_to_status
        (protoStatusToI32 (backendJobStatusAsProto JobStatus.Queued)) ∧
    jobStatusToExecutionStatus JobStatus.Timeout = ExecutionStatus.Failed := by
  have h := c2_status_collapse_agreement JobStatus.Queued (by decide)
  exact ⟨h.1, h.2.1⟩

/-- C3 is false for "shell": `language_to_proto` maps it to the Shell enum
value, but the gRPC adapter's reverse mapping has no arm for Shell and
rejects it as an invalid language instead of producing "shell". -/
theorem c3_counterexample :
    ExecutionClient.language_to_proto "shell" = ProtoLanguage.Shell ∧
    grpcLanguageName (languageToI32 (ExecutionClient.language_to_proto "shell")) =
      Except.error ⟨GrpcCode.invalidArgument, "Invalid language"⟩ := by decide

/-- C3 amended: the round trip string → enum → string yields the original
canonical string for the ten languages python, javascript, typescript, rust,
go, java, cpp, csharp, ruby and php; "shell" maps forward to the Shell enum
value but the gRPC adapter's reverse mapping rejects Shell as invalid; and
every string whose lower-casing is not one of the recognized spellings maps to
Unspecified. -/
theorem c3_language_round_trip (lang : String)
    (h : lang ∈ ["python", "javascript", "typescript", "rust", "go",
      "java", "cpp", "csharp", "ruby", "php"]) :
    grpcLanguageName (languageToI32 (ExecutionClient.language_to_proto lang)) =
      Except.ok lang ∧
    ExecutionClient.language_to_proto "shell" = ProtoLanguage.Shell ∧
    grpcLanguageName (languageToI32 ProtoLanguage.Shell) =
      Except.error ⟨GrpcCode.invalidArgument, "Invalid language"⟩ ∧
    (∀ s : String, ExecutionClient.language_to_proto s = ProtoLanguage.Unspecified ∨
      strToLower s ∈ ["python", "javascript", "typescript", "rust", "go", "java",
        "cpp", "c++", "csharp", "c#", "ruby", "php", "shell", "bash", "sh"]) := by
  refine ⟨?_, by decide, by decide, ?_⟩
  · fin_cases h <;> decide
  · intro s
    unfold ExecutionClient.language_to_proto
    split <;> simp_all

/-- Witness for C3 (amended) at "python", plus the Shell forward mapping. -/
theorem c3_witness :
    grpcLanguageName (languageToI32 (ExecutionClient.language_to_proto "python")) =
      Except.ok "python" ∧
    ExecutionClient.language_to_proto "shell" = ProtoLanguage.Shell := by
  have h := c3_language_round_trip "python" (by decide)
  exact ⟨h.1, h.2.1⟩

/-- C4 is false on the REST surface: a fetch request presenting the credential
"invalid" is served without any authentication — the handler calls the backend
and returns its answer instead of failing with Unauthenticated. -/
theorem c4_counterexample :
    (restGetExecutionHandler [] backendOk
      { auth_header := some "Bearer invalid" } 7).backendCalled = true ∧
    (restGetExecutionHandler [] backendOk
      { auth_header := some "Bearer invalid" } 7).result =
      Except.ok completedExec := by decide

/-- C4 amended: only the RPC surface authenticates before invoking the state
coordinator: with the bypass off, any authentication failure — in particular
the credential "invalid" — makes both RPC handlers return that error with no
backend call and an unchanged cache; the REST handlers perform no
authentication at all and invoke the state coordinator directly, whatever
credential the request presents. -/
theorem c4_auth_gating (cache : Cache) (post : CreateExecutionRequest → HttpResult)
    (get : Nat → HttpResult) (creq : ProtoCreateExecutionRequest)
    (greq : ProtoGetExecutionRequest) (header : Option String) (s : GrpcStatus)
    (hauth : AuthInterceptor.authenticate false header = Except.error s) :
    SylaGatewayService.create_execution false header cache post creq =
      ⟨Except.error s, cache, false⟩ ∧
    SylaGatewayService.get_execution false header cache get greq =
      ⟨Except.error s, cache, false⟩ ∧
    AuthInterceptor.authenticate false (some "Bearer invalid") =
      Except.error ⟨GrpcCode.unauthenticated, "Invalid token"⟩ ∧
    (∀ r : RestRequest, ∀ id : Nat, ∀ request : CreateExecutionRequest,
      restGetExecutionHandler cache get r id = AppState.get_execution cache get id ∧
      restCreateExecutionHandler cache post r request =
        AppState.create_execution cache post request ∧
      restGetExecutionStatusHandler cache get r id =
        AppState.get_execution_status cache get id) := by
  refine ⟨?_, ?_, by decide, fun r id request => ⟨rfl, rfl, rfl⟩⟩
  · simp only [SylaGatewayService.create_execution, hauth]
  · simp only [SylaGatewayService.get_execution, hauth]

/-- A sample wire-format creation request (language 1 = python). -/
def sampleProtoCreateRequest : ProtoCreateExecutionRequest :=
  { language := 1
    code := "print(1)"
    args := []
    timeout := none
    workspace_id := ""
    metadata := [] }

/-- Witness for C4 (amended): both RPC handlers reject the credential
"invalid" with no backend call. -/
theorem c4_witness :
    SylaGatewayService.create_execution false (some "Bearer invalid") []
      postOk sampleProtoCreateRequest =
      ⟨Except.error ⟨GrpcCode.unauthenticated, "Invalid token"⟩, [], false⟩ ∧
    SylaGatewayService.get_execution false (some "Bearer invalid") []
      backendOk { id := "7" } =
      ⟨Except.error ⟨GrpcCode.unauthenticated, "Invalid token"⟩, [], false⟩ := by
  have h := c4_auth_gating [] postOk backendOk sampleProtoCreateRequest
    { id := "7" } (some "Bearer invalid")
    ⟨GrpcCode.unauthenticated, "Invalid token"⟩ (by decide)
  exact ⟨h.1, h.2.1⟩

/-- C5 is false on the HTTP path: `AppState::create_execution` performs no
language validation — a request whose language string maps to no known enum
value ("cobol" maps to Unspecified) is still sent to the backend, and with a
healthy backend it succeeds rather than being rejected as a bad request. -/
theorem c5_counterexample :
    ExecutionClient.language_to_proto "cobol" = ProtoLanguage.Unspecified ∧
    (AppState.create_execution [] postOk
      { code := "x", language := "cobol", timeout_seconds := none,
        args := none, workspace_id := none }).backendCalled = true ∧
    (AppState.create_execution [] postOk
      { code := "x", language := "cobol", timeout_seconds := none,
        args := none, workspace_id := none }).result =
      Except.ok completedExec := by decide

/-- C5 amended: only the RPC adapter enforces the language invariant — an
authenticated wire request whose language value its reverse mapping does not
name (unknown integers, Unspecified, Shell) is rejected with invalid-argument
before any state or backend call, and every out-of-range wire value is so
rejected — while `AppState::create_execution` performs no language validation
and calls the backend for every request. -/
theorem c5_language_validation (cache : Cache)
    (post : CreateExecutionRequest → HttpResult) (req : ProtoCreateExecutionRequest)
    (header : Option String) (ctx : AuthContext) (s : GrpcStatus)
    (hauth : AuthInterceptor.authenticate false header = Except.ok ctx)
    (hlang : grpcLanguageName req.language = Except.error s) :
    SylaGatewayService.create_execution false header cache post req =
      ⟨Except.error s, cache, false⟩ ∧
    (∀ i : Int, languageTryFrom i = none →
      grpcLanguageName i = Except.error ⟨GrpcCode.invalidArgument, "Invalid language"⟩) ∧
    (∀ request : CreateExecutionRequest,
      (AppState.create_execution cache post request).backendCalled = true) := by
  refine ⟨?_, ?_, ?_⟩
  · simp only [SylaGatewayService.create_execution, hauth, hlang]
  · intro i hi
    simp only [grpcLanguageName, hi]
  · intro request
    unfold AppState.create_execution
    split
    · rfl
    · split
      · rfl
      · split
        · rfl
        · rfl

/-- Witness for C5 (amended): an authenticated RPC request carrying the
Unspecified language value is rejected with invalid-argument and no backend
call, while the state coordinator forwards `sampleRequest` unconditionally. -/
theorem c5_witness :
    SylaGatewayService.create_execution false (some "Bearer tok") [] postOk
      { language := 0, code := "x", args := [], timeout := none,
        workspace_id := "", metadata := [] } =
      ⟨Except.error ⟨GrpcCode.invalidArgument, "Invalid language"⟩, [], false⟩ ∧
    (AppState.create_execution [] postOk sampleRequest).backendCalled = true := by
  have h := c5_language_validation [] postOk
    { language := 0, code := "x", args := [], timeout := none,
      workspace_id := "", metadata := [] }
    (some "Bearer tok") ⟨"placeholder-user", some "placeholder-tenant", "tok"⟩
    ⟨GrpcCode.invalidArgument, "Invalid language"⟩ (by decide) (by decide)
  exact ⟨h.1, h.2.2 sampleRequest⟩

/-- C7: when the backend answers 404 for an id the cache cannot serve,
`get_execution` returns the distinct `NotFound` error — not a generic internal
error — the REST encoding maps `NotFound` to HTTP status 404 with kind
"not_found", and the RPC adapter maps it to the gRPC not-found status. -/
theorem c7_notfound_propagation (cache : Cache) (get : Nat → HttpResult)
    (id : Nat) (sid : String) (header : Option String) (ctx : AuthContext)
    (body : Option ExecutionJob)
    (hmiss : cacheGet cache id = none)
    (hresp : get id = HttpResult.response 404 body)
    (hid : uuidParse sid = some id)
    (hauth : AuthInterceptor.authenticate false header = Except.ok ctx) :
    (AppState.get_execution cache get id).result = Except.error ApiError.NotFound ∧
    ApiError.statusCode ApiError.NotFound = 404 ∧
    ApiError.errorKind ApiError.NotFound = "not_found" ∧
    (∀ msg, ApiError.NotFound ≠ ApiError.Internal msg) ∧
    SylaGatewayService.get_execution false header cache get { id := sid } =
      ⟨Except.error ⟨GrpcCode.notFound, "Execution not found"⟩, cache, true⟩ := by
  have hfetch : AppState.fetchExecution cache get id =
      ⟨Except.error ApiError.NotFound, cache, true⟩ := by
    simp [AppState.fetchExecution, hresp]
  have hget : AppState.get_execution cache get id =
      ⟨Except.error ApiError.NotFound, cache, true⟩ := by
    simp only [AppState.get_execution, hmiss]
    exact hfetch
  refine ⟨by rw [hget], rfl, rfl, fun msg hc => ApiError.noConfusion hc, ?_⟩
  simp only [SylaGatewayService.get_execution, hauth, hid, hget]

/-- Witness for C7 at an empty cache and a backend that answers 404. -/
theorem c7_witness :
    (AppState.get_execution [] backendMissing 7).result =
      Except.error ApiError.NotFound ∧
    SylaGatewayService.get_execution false (some "Bearer tok") []
      backendMissing { id := "7" } =
      ⟨Except.error ⟨GrpcCode.notFound, "Execution not found"⟩, [], true⟩ := by
  have h := c7_notfound_propagation [] backendMissing 7 "7" (some "Bearer tok")
    ⟨"placeholder-user", some "placeholder-tenant", "tok"⟩ none
    rfl rfl (by decide) (by decide)
  exact ⟨h.1, h.2.2.2.2⟩
